import Mathlib

/-!
Verification development for the DU-LuaC compiler core (`src/elementTypes.js`,
class `DULuaCompiler`).  The compiler resolves `Library:File` module references,
rewrites `require` statements, expands conditional `---@if` directives and
accumulates a deduplicated list of compiled modules.

The embedding works at two levels, both translated from the source:

* the *require graph* level (`getRequiredFileInfo`, `requireFileAux`,
  `processRefs`) models the resolution and memoization state machine exactly,
  representing each source file by the ordered list of module references its
  transformation encounters (the only part of a file the graph builder
  inspects);
* the *text* level (`processDirectives`, `processLines`, `ubGo`,
  `isBareInlineLookup`) models the lexical rewriting functions character by
  character, mirroring the JavaScript regular expressions they implement.

File-system data, the loaded-library map, the project boundary test
(`Project.containsPath`, defined outside this file) and the SHA-1 hex digest
(Node `crypto`) enter the model as parameters of `CompilerConfig`.
Paths follow POSIX conventions and configured roots are absolute, which is the
setting the path arithmetic of the source assumes.  JavaScript numbers are
modelled as integers, which covers every numeric value the claims involve.
-/

/-! ## JavaScript string and value primitives -/

/-- Character class of the JavaScript regex `\s` (restricted to the ASCII
whitespace the sources contain). -/
def isJsWs (c : Char) : Bool :=
  c = ' ' || c = '\t' || c = '\n' || c = '\r'

/-- Character class of the JavaScript regex `\w`: letters, digits, underscore. -/
def isWordChar (c : Char) : Bool :=
  c.isAlphanum || c = '_'

/-- JavaScript `s.startsWith(p)`. -/
def strStartsWith (s p : String) : Bool :=
  p.data.isPrefixOf s.data

/-- Model of JavaScript `String.prototype.trim`. -/
def trimJS (s : String) : String :=
  ⟨((s.data.dropWhile isJsWs).reverse.dropWhile isJsWs).reverse⟩

/-- The single-quote character, used to build the rewritten require tokens. -/
def qChar : Char := '\''

/-- Values a compiler build variable can take (`CompilerVariable`), together
with the `null` produced by `JSON.parse`.  Numbers are modelled as integers. -/
inductive JSValue where
  | bool (b : Bool)
  | num (n : Int)
  | str (s : String)
  | null
  deriving DecidableEq, BEq

/-- Value of a list of decimal digits. -/
def digitsToNatAux (acc : Nat) : List Char → Nat
  | [] => acc
  | c :: rest => digitsToNatAux (acc * 10 + (c.toNat - 48)) rest

/-- JavaScript `ToNumber` on strings, restricted to optionally signed decimal
integer numerals; `none` stands for `NaN`. -/
def toNumberStr (s : String) : Option Int :=
  let t := trimJS s
  if t = "" then some 0
  else
    match t.data with
    | '-' :: ds => if ds ≠ [] && ds.all Char.isDigit then some (-(digitsToNatAux 0 ds : Int)) else none
    | ds => if ds.all Char.isDigit then some ((digitsToNatAux 0 ds : Int)) else none

/-- JavaScript loose equality `==` between two defined values, for the value
space of build variables (booleans coerce to numbers, a number compared with a
string coerces the string with `ToNumber`, `null` equals only `null` and
`undefined`). -/
def looseEqV : JSValue → JSValue → Bool
  | .null, .null => true
  | .null, _ => false
  | _, .null => false
  | .bool x, .bool y => x = y
  | .bool x, .num b => (if x then (1 : Int) else 0) = b
  | .bool x, .str s => toNumberStr s = some (if x then (1 : Int) else 0)
  | .num a, .bool y => a = (if y then (1 : Int) else 0)
  | .str s, .bool y => toNumberStr s = some (if y then (1 : Int) else 0)
  | .num a, .num b => a = b
  | .num a, .str s => toNumberStr s = some a
  | .str s, .num a => toNumberStr s = some a
  | .str a, .str b => a = b

/-- JavaScript loose equality where the right-hand side may be `undefined`
(an unbound build variable). -/
def looseEq (a : JSValue) : Option JSValue → Bool
  | none => a = .null
  | some b => looseEqV a b

/-- Truthiness of a JavaScript value.  This follows the claim text, which
speaks of the build variable being "truthy"; the source compares with `== true`
instead (see the directive theorems). -/
def specTruthy : JSValue → Bool
  | .bool b => b
  | .num n => n ≠ 0
  | .str s => s ≠ ""
  | .null => false

/-- Model of `JSON.parse` restricted to the literals build variables use:
booleans, `null`, signed decimal integers and simple quoted strings without
escapes.  `none` models a thrown parse error. -/
def jsonParseLite (s : String) : Option JSValue :=
  let t := trimJS s
  if t = "true" then some (.bool true)
  else if t = "false" then some (.bool false)
  else if t = "null" then some .null
  else
    match t.data with
    | '-' :: ds => if ds ≠ [] && ds.all Char.isDigit then some (.num (-(digitsToNatAux 0 ds : Int))) else none
    | '"' :: rest =>
      match rest.reverse with
      | '"' :: midRev =>
        let mid := midRev.reverse
        if rest.length ≥ 1 && mid.all (fun c => c ≠ '"' && c ≠ '\\') then some (.str ⟨mid⟩) else none
      | _ => none
    | ds => if ds ≠ [] && ds.all Char.isDigit then some (.num ((digitsToNatAux 0 ds : Int))) else none

/-! ## Conditional directives (`processDirectives`, source lines 523-568)

The single directive regex is
`---@if (\w+)\w?(.*?)\n([\S\s]*?)\n---@end` with flags `gm`: after the literal marker the
first group greedily takes the maximal run of word characters, `\w?` is then
forced empty, the second group is the remainder of that line, and the third
group extends lazily to the first following `"\n---@end"`.  Global replacement
scans left to right and resumes after each replaced block. -/

/-- Split a character list at the first occurrence of `m`, returning the text
before the occurrence and the text after it. -/
def splitFirst (m : List Char) : List Char → Option (List Char × List Char)
  | [] => none
  | c :: rest =>
    if m.isPrefixOf (c :: rest) then some ([], (c :: rest).drop m.length)
    else
      match splitFirst m rest with
      | none => none
      | some (pre, post) => some (c :: pre, post)

/-- The `---@else` marker on which a directive body is split. -/
def elseMarker : List Char := "---@else".data

/-- The `"\n---@end"` closing sequence the directive regex searches for. -/
def endMarker : List Char := "\n---@end".data

/-- The two output bodies of a directive block: models the JavaScript split
of the body on the else marker, with `parts[0]` and `parts[1]` (the text between
the first and second occurrence; everything from a second `---@else` on is
discarded, and a missing else-clause yields an empty false-body). -/
def blocksOf (innerCode : List Char) : List Char × List Char :=
  match splitFirst elseMarker innerCode with
  | none => (innerCode, [])
  | some (t, rest) =>
    match splitFirst elseMarker rest with
    | none => (t, rest)
    | some (f, _) => (t, f)

/-- Parse of the comparison literal: an empty literal stands for `true`, a
JSON-parseable literal for its parsed value, anything else for itself as a
plain string (the `catch` swallowing the parse error). -/
def parseCompareValue (compareValue : String) : JSValue :=
  if compareValue.length = 0 then .bool true
  else
    match jsonParseLite compareValue with
    | some v => v
    | none => .str compareValue

/-- The directive replacement action (source lines 528-557): pick the
true-body exactly when the parsed literal is loosely equal (`==`) to the named
build variable, and trim the surviving body. -/
def directiveAction (vars : String → Option JSValue)
    (compareVariableName compareValue innerCode : String) : String :=
  let blocks := blocksOf innerCode.data
  if looseEq (parseCompareValue compareValue) (vars compareVariableName)
  then trimJS ⟨blocks.1⟩
  else trimJS ⟨blocks.2⟩

/-- Negation of the newline test, the complement of the character class of
the regex dot. -/
def notNewline (c : Char) : Bool := c != '\n'

/-- Attempt to match the directive pattern starting directly after the literal
`"---@if "`: a nonempty run of word characters, the rest of the line as the
comparison literal, then the body up to the first `"\n---@end"`.  Returns the
captured groups and the text after the match. -/
def tryMatchDirective (cs : List Char) : Option (String × String × String × List Char) :=
  let nameRun := cs.takeWhile isWordChar
  if nameRun.isEmpty then none
  else
    let rest1 := cs.dropWhile isWordChar
    let valueRun := rest1.takeWhile notNewline
    match rest1.dropWhile notNewline with
    | [] => none
    | _ :: rest3 =>
      match splitFirst endMarker rest3 with
      | none => none
      | some (inner, post) => some (⟨nameRun⟩, ⟨valueRun⟩, ⟨inner⟩, post)

/-- The opening marker of the directive pattern. -/
def ifMarker : List Char := "---@if ".data

/-- Left-to-right global replacement of complete directive blocks; positions
where the pattern does not complete are copied through unchanged.  The fuel is
instantiated with the text length, which one-character progress makes
sufficient. -/
def processDirectivesGo (vars : String → Option JSValue) : Nat → List Char → List Char
  | 0, cs => cs
  | _ + 1, [] => []
  | fuel + 1, c :: rest =>
    if ifMarker.isPrefixOf (c :: rest) then
      match tryMatchDirective ((c :: rest).drop 7) with
      | some (name, value, inner, post) =>
        (directiveAction vars name value inner).data ++ processDirectivesGo vars fuel post
      | none => c :: processDirectivesGo vars fuel rest
    else c :: processDirectivesGo vars fuel rest

/-- Handles processor directives in a piece of source code
(`DULuaCompiler.processDirectives`). -/
def processDirectives (vars : String → Option JSValue) (sourceCode : String) : String :=
  ⟨processDirectivesGo vars sourceCode.data.length sourceCode.data⟩

example :
    processDirectives (fun n => if n = "RELEASE" then some (.bool true) else none)
      "---@if RELEASE true\nA\n---@else\nB\n---@end" = "A" := by decide

example :
    processDirectives (fun n => if n = "V" then some (.num 2) else none)
      "---@if V\nA\n---@else\nB\n---@end" = "B" := by decide

example :
    processDirectives (fun _ => none) "x\n---@if FOO\ny" = "x\n---@if FOO\ny" := by decide

/-! ## POSIX path arithmetic (Node `path`, used by the resolver)

Configured roots and resolved file paths are absolute `/`-separated strings;
`pathResolve` is Node `path.resolve` on such input (segment normalization),
`pathJoin` is `path.join` with an absolute first argument, `pathRelative`,
`pathDirname` and `pathBasename` are their Node counterparts. -/

/-- JavaScript `s.split(sep)` for a single-character separator, on character
lists. -/
def splitOnCharList (sep : Char) : List Char → List (List Char)
  | [] => [[]]
  | c :: rest =>
    if c = sep then [] :: splitOnCharList sep rest
    else
      match splitOnCharList sep rest with
      | [] => [[c]]
      | g :: gs => (c :: g) :: gs

/-- Nonempty segments of a path string. -/
def splitPath (s : String) : List String :=
  ((splitOnCharList '/' s.data).map (fun g => (⟨g⟩ : String))).filter (fun seg => seg ≠ "")

/-- Resolution of `.` and `..` segments of an absolute path (at the root a
`..` stays at the root, as in Node). -/
def normSegsAbs (segs : List String) : List String :=
  segs.foldl
    (fun acc seg =>
      if seg = "." then acc
      else if seg = ".." then acc.dropLast
      else acc ++ [seg])
    []

/-- Node `path.resolve` on an absolute path. -/
def pathResolve (s : String) : String :=
  "/" ++ String.intercalate "/" (normSegsAbs (splitPath s))

/-- Node `path.join` with an absolute first argument. -/
def pathJoin (a b : String) : String :=
  pathResolve (a ++ "/" ++ b)

/-- Node `path.dirname` on an absolute path. -/
def pathDirname (s : String) : String :=
  "/" ++ String.intercalate "/" (splitPath s).dropLast

/-- Node `path.basename` on an absolute path. -/
def pathBasename (s : String) : String :=
  ((splitPath s).getLast?).getD ""

/-- Length of the common prefix of two segment lists. -/
def commonPrefixLen : List String → List String → Nat
  | a :: as, b :: bs => if a = b then commonPrefixLen as bs + 1 else 0
  | _, _ => 0

/-- Node `path.relative` between two absolute paths: resolve both, drop the
common segments, climb with `..` for what remains of the start and descend
into what remains of the target. -/
def pathRelative (f t : String) : String :=
  let fa := normSegsAbs (splitPath f)
  let ta := normSegsAbs (splitPath t)
  let common := commonPrefixLen fa ta
  String.intercalate "/" (List.replicate (fa.length - common) ".." ++ ta.drop common)

/-- JavaScript `template.replace('?', repl)`: replace the first `?` only. -/
def replaceFirstQ (template repl : String) : String :=
  let pre := template.data.takeWhile (fun c => c ≠ '?')
  match template.data.dropWhile (fun c => c ≠ '?') with
  | [] => template
  | _ :: tail => ⟨pre ++ repl.data ++ tail⟩

/-- JavaScript `s.replace(/\\/g, '/')` (backslashes to forward slashes). -/
def replaceBackslashes (s : String) : String :=
  ⟨s.data.map (fun c => if c = '\\' then '/' else c)⟩

example : pathRelative "/proj/src" "/libs/l/src/foo.lua" = "../../libs/l/src/foo.lua" := by decide
example : pathRelative "/proj/src" "/proj/src/util.lua" = "util.lua" := by decide
example : replaceFirstQ (pathJoin "/proj/src" "?.lua") "util" = "/proj/src/util.lua" := by decide
example : pathDirname "/proj/src/main.lua" = "/proj/src" := by decide
example : pathBasename "/ext/dir/file.lua" = "file.lua" := by decide

/-! ## Data model of the compiler -/

/-- A loaded library: an identifier and a source root directory
(`types/Library`, as consumed by the compiler). -/
structure Library where
  id : String
  sourcePath : String
  deriving DecidableEq, BEq

/-- A parsed module reference (`DULuaCompilerFileName`): an optional library
identifier and a filename. -/
structure DULuaCompilerFileName where
  project : Option String := none
  filename : String
  deriving DecidableEq, BEq

/-- A resolved module reference (`DULuaCompilerFileInfo`). -/
structure DULuaCompilerFileInfo where
  requireInfo : DULuaCompilerFileName
  fullpath : String
  deriving DecidableEq, BEq

/-- A compiled module entry (`DULuaCompilerRequire`).  The transformed body is
represented by the ordered list of rewritten require tokens the transformation
produced for the file. -/
structure DULuaCompilerRequire where
  fullNameWithProject : String
  sourceCode : List String
  deriving DecidableEq, BEq

/-- Console events the compiler emits (`CLI.status` and `CLI.warn`, with the
color decoration omitted). -/
inductive LogEvent where
  | status (msg : String)
  | warn (msg : String)
  deriving DecidableEq, BEq

/-- Fatal outcomes: `CLI.panic`, the thrown loop error, a failed file read,
and exhaustion of the recursion fuel of the model. -/
inductive CompileError where
  | panic (msg : String)
  | loop (msg : String)
  | ioError (path : String)
  | outOfFuel
  deriving DecidableEq, BEq

/-- The per-compilation configuration: everything the constructor loads plus
the external collaborators (file system, project boundary test, hash
function).  The file system maps normalized absolute paths of existing regular
files to their content, represented by the ordered list of module references
the transformation of the file encounters. -/
structure CompilerConfig where
  projectLibrary : Library
  projectSourceDirectory : String
  loadedLibraries : List (String × Library)
  loadedLuaPath : List String
  internalPaths : List String
  containsPath : String → Bool
  sha1Hex : String → String
  preload : Bool
  fs : List (String × List String)

/-- The mutable instance fields of `DULuaCompiler` that evolve during a build,
plus the emitted console log. -/
structure CompilerState where
  sourceDirectories : List String
  requiredFiles : List DULuaCompilerRequire
  currentFiles : List String
  currentLibraries : List (Option Library)
  log : List LogEvent
  deriving DecidableEq, BEq

/-- Lookup in the `SimpleMap` of loaded libraries. -/
def lookupLibrary (cfg : CompilerConfig) (id : String) : Option Library :=
  (cfg.loadedLibraries.find? (fun e => e.1 == id)).map (fun e => e.2)

/-- Existence test for a candidate path (`fs.existsSync` plus the
`isFile` check; the OS resolves `.` and `..` segments). -/
def fileExists (cfg : CompilerConfig) (p : String) : Bool :=
  (cfg.fs.find? (fun e => e.1 == pathResolve p)).isSome

/-- Model of `fs.readFileSync` on an already-resolved path. -/
def readFileModel (cfg : CompilerConfig) (p : String) : Option (List String) :=
  (cfg.fs.find? (fun e => e.1 == p)).map (fun e => e.2)

/-- JavaScript truthiness of an optional string (`undefined` and the empty
string are falsy). -/
def strOptTruthy : Option String → Bool
  | none => false
  | some s => !(s == "")

/-- Current source directory (`sourceDirectories[0]`). -/
def currentDirectory (st : CompilerState) : String :=
  (st.sourceDirectories.head?).getD ""

/-- Current file (`currentFiles[0]`; empty when at the root). -/
def currentFileStr (st : CompilerState) : String :=
  (st.currentFiles.head?).getD ""

/-- Current library (`currentLibraries[0]`). -/
def currentLibrary (st : CompilerState) : Option Library :=
  (st.currentLibraries.head?).join

/-- Root test (`!this.currentFiles[0]`): the stack is empty, meaning the
build entry file itself is being resolved. -/
def isRootFile (st : CompilerState) : Bool :=
  match st.currentFiles with
  | [] => true
  | f :: _ => f == ""

/-- Appends a console event. -/
def addLog (st : CompilerState) (ev : LogEvent) : CompilerState :=
  { st with log := st.log ++ [ev] }

/-- `sourceStartProcessing`: push the context frame for a file. -/
def sourceStartProcessing (st : CompilerState) (file : String) (library : Option Library) :
    CompilerState :=
  { st with
    currentLibraries := library :: st.currentLibraries,
    sourceDirectories := pathDirname file :: st.sourceDirectories,
    currentFiles := file :: st.currentFiles }

/-- `sourceFinishProcessing`: pop the context frame. -/
def sourceFinishProcessing (st : CompilerState) : CompilerState :=
  { st with
    currentFiles := st.currentFiles.tail,
    sourceDirectories := st.sourceDirectories.tail,
    currentLibraries := st.currentLibraries.tail }

/-- The state a build starts from (constructor plus the first line of
`startBuild`). -/
def initialState (cfg : CompilerConfig) : CompilerState :=
  { sourceDirectories := [cfg.projectSourceDirectory]
    requiredFiles := []
    currentFiles := []
    currentLibraries := [some cfg.projectLibrary]
    log := [] }

/-! ## Reference parsing and resolution (`parseFileString`,
`getRequiredFileInfo`, source lines 399-487) -/

/-- Parses a string in the `project:file` syntax
(`DULuaCompiler.parseFileString`): `filename.split(':')`, index 0 becoming the
project when at least two fields exist and index 1 then becoming the filename
(fields beyond the second are dropped by the source).  The source also
computes a forward-slash-normalized copy of its argument that it never uses;
that dead local is omitted. -/
def parseFileString (filename : String) : DULuaCompilerFileName :=
  match splitOnCharList ':' filename.data with
  | [] => { filename := "" }
  | [only] => { filename := ⟨only⟩ }
  | p :: f :: _ => { project := some ⟨p⟩, filename := ⟨f⟩ }

/-- Returns information about a required file
(`DULuaCompiler.getRequiredFileInfo`): parse the reference, pick the library
(an explicitly named library must be loaded or the build panics), build the
candidate list from the library root or the current directory followed by the
`LUA_PATH` templates, take the first existing candidate, resolve it, and
canonicalize the reference against the current library. -/
def getRequiredFileInfo (cfg : CompilerConfig) (st : CompilerState) (filename : String) :
    Except CompileError (Option DULuaCompilerFileInfo) :=
  let file := parseFileString filename
  let library? :=
    if strOptTruthy file.project then lookupLibrary cfg (file.project.getD "")
    else some cfg.projectLibrary
  match library? with
  | none => .error (.panic ("Library not found for require " ++ filename))
  | some library =>
    let projectBase := if strOptTruthy file.project then library.sourcePath else currentDirectory st
    let internalLuaPath := pathJoin projectBase "?.lua" :: cfg.loadedLuaPath
    let possibleFilePaths := internalLuaPath.map (fun t => replaceFirstQ t file.filename)
    match possibleFilePaths.find? (fun p => fileExists cfg p) with
    | none => .ok none
    | some filepath =>
      let fullpath := pathResolve filepath
      let file' :=
        match currentLibrary st with
        | some cur =>
          { project := if strOptTruthy file.project then file.project else some cur.id,
            filename := replaceBackslashes (pathRelative cur.sourcePath fullpath) }
        | none => file
      .ok (some { requireInfo := file', fullpath := fullpath })

/-! ## The require graph builder (`requireFile`, source lines 684-767) -/

/-- The Lua global used for inlined requires
(`DULuaCompiler.globalInlineRequire`). -/
def globalInlineRequire : String := "_REQ"

/-- The canonical cross-library key of a resolved reference
(source line 714): the project id, `::extern` when falsy, then `:`, then the
canonicalized filename. -/
def fullRequireName (info : DULuaCompilerFileInfo) : String :=
  (if strOptTruthy info.requireInfo.project then info.requireInfo.project.getD "" else "::extern")
    ++ ":" ++ info.requireInfo.filename

/-- The synthetic key of a file outside the project boundary (source lines
719-725): the first ten characters of the SHA-1 hex digest of the absolute
path, a colon, and the basename. -/
def externalPathKey (sha1Hex : String → String) (fullpath : String) : String :=
  (sha1Hex fullpath).take 10 ++ ":" ++ pathBasename fullpath

/-- The original text of a module reference in the source
(`require("ref")`), which the transformation leaves untouched when resolution
returns nothing. -/
def requireOriginal (r : String) : String :=
  "require(\"" ++ r ++ "\")"

/-- The rewritten text of a successfully resolved reference (handler lines
626-631): a `require` call on the full name when preloads are emitted, an
inline table lookup on the same name otherwise. -/
def requireToken (preload : Bool) (name : String) : String :=
  if preload then "require(" ++ ⟨[qChar]⟩ ++ name ++ ⟨[qChar]⟩ ++ ")"
  else globalInlineRequire ++ "[" ++ ⟨[qChar]⟩ ++ name ++ ⟨[qChar]⟩ ++ "]"

/-- The console message announcing a file transformation (source line 744).
One such event per `processSourceCode` run over a file. -/
def compileMsg (fullpath : String) : String :=
  "Compiling file: " ++ fullpath

/-- Processes the module references of a file in order (the require-relevant
effect of `processSourceCode`), threading the compiler state through the
resolver `f` and collecting the rewritten tokens. -/
def processRefs
    (f : CompilerState → String → Except CompileError (Option DULuaCompilerRequire × CompilerState))
    (preload : Bool) :
    CompilerState → List String → Except CompileError (List String × CompilerState)
  | st, [] => .ok ([], st)
  | st, r :: rs =>
    match f st r with
    | .error e => .error e
    | .ok (none, st1) =>
      match processRefs f preload st1 rs with
      | .error e => .error e
      | .ok (toks, st2) => .ok (requireOriginal r :: toks, st2)
    | .ok (some entry, st1) =>
      match processRefs f preload st1 rs with
      | .error e => .error e
      | .ok (toks, st2) => .ok (requireToken preload entry.fullNameWithProject :: toks, st2)

/-- One step of `DULuaCompiler.requireFile`: resolve the reference, handle the
missing case (fatal at the root, a status or warning otherwise), detect a
require loop against the stack of files in flight, compute the cross-library
key (hashed when the file lies outside the project boundary), return a cached
entry when the key is already accumulated, and otherwise read the file,
process it through `recurse` inside a pushed context frame, and accumulate the
new entry (never for the root file). -/
def requireFileStep (cfg : CompilerConfig)
    (recurse : CompilerState → List String → Except CompileError (List String × CompilerState))
    (st : CompilerState) (filename : String) :
    Except CompileError (Option DULuaCompilerRequire × CompilerState) :=
  match getRequiredFileInfo cfg st filename with
  | .error e => .error e
  | .ok none =>
    if isRootFile st then .error (.panic ("Project file missing: " ++ filename))
    else if cfg.internalPaths.any (fun p => strStartsWith filename p) then
      .ok (none, addLog st (.status ("Required a game library " ++ filename ++ " at file "
        ++ currentFileStr st)))
    else
      .ok (none, addLog st (.warn ("Required library " ++ filename ++ " at file "
        ++ currentFileStr st ++ " was not found anywhere, leaving statement alone...")))
  | .ok (some info) =>
    if st.currentFiles.contains info.fullpath then
      .error (.loop ("Files required in a loop at " ++ currentFileStr st))
    else
      let keyed :=
        if cfg.containsPath info.fullpath then (fullRequireName info, st)
        else
          let key := externalPathKey cfg.sha1Hex info.fullpath
          (key, addLog st (.status ("External path hashed [" ++ key ++ "] -> " ++ info.fullpath)))
      match keyed.2.requiredFiles.find? (fun e => e.fullNameWithProject == keyed.1) with
      | some existing => .ok (some existing, keyed.2)
      | none =>
        match readFileModel cfg info.fullpath with
        | none => .error (.ioError info.fullpath)
        | some refs =>
          let st2 := sourceStartProcessing (addLog keyed.2 (.status (compileMsg info.fullpath)))
            info.fullpath
            (if strOptTruthy info.requireInfo.project then
              lookupLibrary cfg (info.requireInfo.project.getD "")
             else none)
          match recurse st2 refs with
          | .error e => .error e
          | .ok (toks, st3) =>
            let st4 := sourceFinishProcessing st3
            let entry : DULuaCompilerRequire := ⟨keyed.1, toks⟩
            .ok (some entry,
              if isRootFile st4 then st4
              else { st4 with requiredFiles := st4.requiredFiles ++ [entry] })

/-- `DULuaCompiler.requireFile`, with a fuel bound on the recursion depth (the
checks before the recursive transformation are independent of the fuel). -/
def requireFileAux (cfg : CompilerConfig) : Nat → CompilerState → String →
    Except CompileError (Option DULuaCompilerRequire × CompilerState)
  | 0, st, filename =>
    requireFileStep cfg (fun _ _ => .error .outOfFuel) st filename
  | n + 1, st, filename =>
    requireFileStep cfg
      (fun st2 refs => processRefs (fun s r => requireFileAux cfg n s r) cfg.preload st2 refs)
      st filename

/-! ## Observation helpers and concrete build scenarios -/

deriving instance DecidableEq for Except

/-- Number of transformation passes a run performed over a given file, read
off the console log. -/
def countCompileEvents
    (r : Except CompileError (Option DULuaCompilerRequire × CompilerState)) (p : String) : Nat :=
  match r with
  | .ok (_, st) => st.log.count (.status (compileMsg p))
  | .error _ => 0

/-- The keys of the accumulated module list of a run, in accumulation order. -/
def requiredNamesOf
    (r : Except CompileError (Option DULuaCompilerRequire × CompilerState)) : List String :=
  match r with
  | .ok (_, st) => st.requiredFiles.map (fun e => e.fullNameWithProject)
  | .error _ => []

/-- Project library of the scenario builds. -/
def projLib : Library := ⟨"proj", "/proj/src"⟩

/-- External library of the scenario builds. -/
def libL : Library := ⟨"lib", "/libs/l/src"⟩

/-- Scenario: the root file references `util` bare and `lib:mod`, and the
library file `mod` references the same `util` as `proj:util`; every file lies
inside the project boundary. -/
def cfgCross : CompilerConfig :=
  { projectLibrary := projLib
    projectSourceDirectory := "/proj/src"
    loadedLibraries := [("proj", projLib), ("lib", libL)]
    loadedLuaPath := []
    internalPaths := []
    containsPath := fun _ => true
    sha1Hex := fun _ => ""
    preload := true
    fs := [("/proj/src/main.lua", ["util", "lib:mod"]),
           ("/proj/src/util.lua", []),
           ("/libs/l/src/mod.lua", ["proj:util"])] }

example :
    countCompileEvents (requireFileAux cfgCross 5 (initialState cfgCross) "proj:main")
      "/proj/src/util.lua" = 2 := by decide

example :
    requiredNamesOf (requireFileAux cfgCross 5 (initialState cfgCross) "proj:main") =
      ["proj:util.lua", "proj:../../../proj/src/util.lua", "lib:../../libs/l/src/mod.lua"] := by
  decide

/-- Scenario: a diamond of references, `main` referencing `a` and `b`, which
both reference the same `util`. -/
def cfgDiamond : CompilerConfig :=
  { projectLibrary := projLib
    projectSourceDirectory := "/proj/src"
    loadedLibraries := [("proj", projLib)]
    loadedLuaPath := []
    internalPaths := []
    containsPath := fun _ => true
    sha1Hex := fun _ => ""
    preload := true
    fs := [("/proj/src/main.lua", ["a", "b"]),
           ("/proj/src/a.lua", ["util"]),
           ("/proj/src/b.lua", ["util"]),
           ("/proj/src/util.lua", [])] }

example :
    (requireFileAux cfgDiamond 5 (initialState cfgDiamond) "proj:main").isOk = true := by decide

example :
    countCompileEvents (requireFileAux cfgDiamond 5 (initialState cfgDiamond) "proj:main")
      "/proj/src/util.lua" = 1 := by decide

example :
    requiredNamesOf (requireFileAux cfgDiamond 5 (initialState cfgDiamond) "proj:main") =
      ["proj:util.lua", "proj:a.lua", "proj:b.lua"] := by decide

/-- Scenario: `a` and `b` reference each other in a loop. -/
def cfgCycle : CompilerConfig :=
  { projectLibrary := projLib
    projectSourceDirectory := "/proj/src"
    loadedLibraries := [("proj", projLib)]
    loadedLuaPath := []
    internalPaths := []
    containsPath := fun _ => true
    sha1Hex := fun _ => ""
    preload := true
    fs := [("/proj/src/a.lua", ["b"]),
           ("/proj/src/b.lua", ["a"])] }

example :
    requireFileAux cfgCycle 5 (initialState cfgCycle) "proj:a" =
      .error (.loop "Files required in a loop at /proj/src/b.lua") := by decide

/-! ## Line-level rewriting (`processSourceCode`, source lines 648-677)

After directive expansion and syntax validation, the source is split on
newlines and each line is run through the rewrite regexes; when preload
emission is disabled and a rewritten line matches the bare-lookup regex
(optional whitespace, the inline-require global indexed with a single-quoted
key, optional whitespace), the source executes a return of an empty string
inside the loop body, which ends `processSourceCode` itself. -/

/-- Scan for the quote-bracket closing pair of the bare-lookup regex, lazily: accept
as soon as a pair is followed only by whitespace, otherwise keep scanning
(`.` never matches a newline). -/
def bareLookupScan : List Char → Bool
  | '\'' :: ']' :: rest => rest.all isJsWs || bareLookupScan (']' :: rest)
  | c :: rest => (c != '\n') && bareLookupScan rest
  | [] => false

/-- Test of the bare-lookup regex of source line 668 against a line. -/
def isBareInlineLookup (line : String) : Bool :=
  let t := line.data.dropWhile isJsWs
  if ((globalInlineRequire ++ "[").data ++ [qChar]).isPrefixOf t then bareLookupScan (t.drop 6)
  else false

/-- The per-line loop of `processSourceCode`, with the per-line regex pipeline
abstracted as `rw`: rewrite every line in order, but when preload emission is
disabled and a rewritten line is a bare inline lookup, the whole function
returns the empty string on the spot (the early return of the source). -/
def processLinesGo (preload : Bool) (rw : String → String) : List String → Option (List String)
  | [] => some []
  | l :: ls =>
    let l2 := rw l
    if !preload && isBareInlineLookup l2 then none
    else
      match processLinesGo preload rw ls with
      | none => none
      | some rest => some (l2 :: rest)

/-- Split the lines, run the loop, and rejoin (`lines.join('\n')`); the early
return yields the empty string for the entire file. -/
def processLines (preload : Bool) (rw : String → String) (sourceCode : String) : String :=
  match processLinesGo preload rw ((splitOnCharList '\n' sourceCode.data).map (fun g => (⟨g⟩ : String))) with
  | none => ""
  | some ls => String.intercalate "\n" ls

/-! ## The numeric trailing-question-mark guard (source lines 635-642)

The regex `([0-9])\?\n` with flag `g` rewrites a digit, a question mark and a
newline into the digit, `.0` and the newline, warning once per replacement.
The pipeline applies it through `Utils.replaceAsync(line, ...)` to the
individual lines produced by splitting on newlines. -/

/-- Global replacement of the guard regex over a character list, counting the
replacements (each one emits a `CLI.warn`). -/
def ubGo : List Char → List Char × Nat
  | c1 :: '?' :: '\n' :: rest =>
    if c1.isDigit then
      let r := ubGo rest
      (c1 :: '.' :: '0' :: '\n' :: r.1, r.2 + 1)
    else
      let r := ubGo ('?' :: '\n' :: rest)
      (c1 :: r.1, r.2)
  | c :: rest =>
    let r := ubGo rest
    (c :: r.1, r.2)
  | [] => ([], 0)

/-- The guard applied to one piece of text: the rewritten text and the number
of warnings emitted. -/
def ubApply (s : String) : String × Nat :=
  let r := ubGo s.data
  (⟨r.1⟩, r.2)

/-- Warnings the guard emits across a line-loop run: the handler fires once
per match found inside an individual line. -/
def ubWarningsInLoop (sourceCode : String) : Nat :=
  (((splitOnCharList '\n' sourceCode.data).map (fun g => (ubApply (⟨g⟩ : String)).2)).sum)

example : ubApply "local s = [[\n3?\n]]" = ("local s = [[\n3.0\n]]", 1) := by decide
example : ubApply "x = 12?\ny" = ("x = 12.0\ny", 1) := by decide
example : ubWarningsInLoop "local s = [[\n3?\n]]" = 0 := by decide
example :
    processLines true (fun l => (ubApply l).1) "local s = [[\n3?\n]]" = "local s = [[\n3?\n]]" := by
  decide
example : isBareInlineLookup ("  _REQ[" ++ ⟨[qChar]⟩ ++ "p:u.lua" ++ ⟨[qChar]⟩ ++ "]  ") = true := by
  decide
example : isBareInlineLookup ("local u = _REQ[" ++ ⟨[qChar]⟩ ++ "p:u.lua" ++ ⟨[qChar]⟩ ++ "]") = false := by
  decide
example :
    processLines false (fun l => l) ("_REQ[" ++ ⟨[qChar]⟩ ++ "p:u.lua" ++ ⟨[qChar]⟩ ++ "]" ++ "\nlocal x = 1") = "" := by
  decide

/-- Scenario: the file in flight references the missing `dkjson` (declared as
engine-provided) and the missing `nosuch` (not declared); the build also
serves for resolving `lib:foo` from the root context and for an external file
outside the boundary. -/
def cfgMiss : CompilerConfig :=
  { projectLibrary := projLib
    projectSourceDirectory := "/proj/src"
    loadedLibraries := [("proj", projLib), ("lib", libL)]
    loadedLuaPath := ["/ext/?.lua"]
    internalPaths := ["dkjson", "cpml"]
    containsPath := fun p => strStartsWith p "/proj/"
    sha1Hex := fun p => if p = "/ext/vendor.lua" then "da39a3ee5e6b4b0d3255bfef95601890afd80709" else ""
    preload := true
    fs := [("/proj/src/main.lua", ["dkjson", "nosuch", "vendor"]),
           ("/libs/l/src/foo.lua", []),
           ("/ext/vendor.lua", [])] }

/-- The state in which `main.lua` is being processed in the missing-reference
scenario. -/
def stInMain : CompilerState :=
  sourceStartProcessing (addLog (initialState cfgMiss) (.status (compileMsg "/proj/src/main.lua")))
    "/proj/src/main.lua" (some projLib)

example : getRequiredFileInfo cfgMiss stInMain "dkjson" = .ok none := by decide
example :
    requireFileAux cfgMiss 3 stInMain "dkjson" =
      .ok (none, addLog stInMain
        (.status "Required a game library dkjson at file /proj/src/main.lua")) := by decide
example :
    requireFileAux cfgMiss 3 stInMain "nosuch" =
      .ok (none, addLog stInMain
        (.warn "Required library nosuch at file /proj/src/main.lua was not found anywhere, leaving statement alone...")) := by decide
example :
    requireFileAux cfgMiss 3 (initialState cfgMiss) "missing_root" =
      .error (.panic "Project file missing: missing_root") := by decide
example :
    getRequiredFileInfo cfgMiss (initialState cfgMiss) "lib:foo" =
      .ok (some { requireInfo := { project := some "lib", filename := "../../libs/l/src/foo.lua" },
                  fullpath := "/libs/l/src/foo.lua" }) := by decide
example :
    (requireFileAux cfgMiss 3 stInMain "vendor").map (fun r => r.1.map (fun e => e.fullNameWithProject)) =
      .ok (some "da39a3ee5e:vendor.lua") := by decide

/-! ## Lemmas about a single `requireFile` step -/

theorem addLog_requiredFiles (st : CompilerState) (ev : LogEvent) :
    (addLog st ev).requiredFiles = st.requiredFiles := rfl

theorem requireFileStep_cycle (cfg : CompilerConfig) (recurse) (st : CompilerState)
    (fn : String) (info : DULuaCompilerFileInfo)
    (h1 : getRequiredFileInfo cfg st fn = .ok (some info))
    (h2 : st.currentFiles.contains info.fullpath = true) :
    requireFileStep cfg recurse st fn =
      .error (.loop ("Files required in a loop at " ++ currentFileStr st)) := by
  unfold requireFileStep
  rw [h1]
  dsimp only
  rw [h2]
  rfl

theorem requireFileStep_cache_hit (cfg : CompilerConfig) (recurse) (st : CompilerState)
    (fn : String) (info : DULuaCompilerFileInfo) (e : DULuaCompilerRequire)
    (h1 : getRequiredFileInfo cfg st fn = .ok (some info))
    (h2 : st.currentFiles.contains info.fullpath = false)
    (h3 : cfg.containsPath info.fullpath = true)
    (h4 : st.requiredFiles.find? (fun r => r.fullNameWithProject == fullRequireName info) = some e) :
    requireFileStep cfg recurse st fn = .ok (some e, st) := by
  unfold requireFileStep
  rw [h1]
  dsimp only
  rw [h2, h3]
  show (match st.requiredFiles.find? (fun r => r.fullNameWithProject == fullRequireName info) with
    | some existing => Except.ok (some existing, st)
    | none => _) = _
  rw [h4]

theorem requireFileStep_missing_nonroot (cfg : CompilerConfig) (recurse) (st : CompilerState)
    (fn : String)
    (h1 : getRequiredFileInfo cfg st fn = .ok none)
    (h2 : isRootFile st = false) :
    requireFileStep cfg recurse st fn =
      .ok (none, addLog st
        (if cfg.internalPaths.any (fun p => strStartsWith fn p)
         then .status ("Required a game library " ++ fn ++ " at file " ++ currentFileStr st)
         else .warn ("Required library " ++ fn ++ " at file " ++ currentFileStr st
           ++ " was not found anywhere, leaving statement alone..."))) := by
  unfold requireFileStep
  rw [h1]
  dsimp only
  rw [h2]
  cases h3 : cfg.internalPaths.any (fun p => strStartsWith fn p) <;> rfl

theorem requireFileStep_missing_root (cfg : CompilerConfig) (recurse) (st : CompilerState)
    (fn : String)
    (h1 : getRequiredFileInfo cfg st fn = .ok none)
    (h2 : isRootFile st = true) :
    requireFileStep cfg recurse st fn = .error (.panic ("Project file missing: " ++ fn)) := by
  unfold requireFileStep
  rw [h1]
  dsimp only
  rw [h2]
  rfl

theorem requireFileStep_external_key (cfg : CompilerConfig) (recurse) (st : CompilerState)
    (fn : String) (info : DULuaCompilerFileInfo) (e : DULuaCompilerRequire) (st2 : CompilerState)
    (h1 : getRequiredFileInfo cfg st fn = .ok (some info))
    (h2 : st.currentFiles.contains info.fullpath = false)
    (h3 : cfg.containsPath info.fullpath = false)
    (h5 : requireFileStep cfg recurse st fn = .ok (some e, st2)) :
    e.fullNameWithProject = externalPathKey cfg.sha1Hex info.fullpath := by
  unfold requireFileStep at h5
  rw [h1] at h5
  dsimp only at h5
  rw [h2, h3] at h5
  simp only [Bool.false_eq_true, if_false, addLog_requiredFiles] at h5
  split at h5
  case _ ex hfind =>
    have hpred := List.find?_some hfind
    simp only [Except.ok.injEq, Prod.mk.injEq, Option.some.injEq] at h5
    rw [← h5.1]
    exact beq_iff_eq.mp hpred
  case _ =>
    split at h5
    case _ => exact absurd h5 (by simp)
    case _ refs hread =>
      split at h5
      case _ => exact absurd h5 (by simp)
      case _ toks st3 hrec =>
        simp only [Except.ok.injEq, Prod.mk.injEq, Option.some.injEq] at h5
        rw [← h5.1]

/-! ## Lemmas about the character-level splitting functions -/

theorem strDataAppend (a b : String) : (a ++ b).data = a.data ++ b.data := rfl

theorem strLengthData (s : String) : s.length = s.data.length := rfl

theorem splitFirst_none_tail {m : List Char} {c : Char} {rest : List Char}
    (h : splitFirst m (c :: rest) = none) : splitFirst m rest = none := by
  unfold splitFirst at h
  split at h
  · simp at h
  · cases hsf : splitFirst m rest with
    | none => rfl
    | some p =>
      obtain ⟨pre, post⟩ := p
      rw [hsf] at h
      simp at h

theorem splitFirst_none_drop (m : List Char) (n : Nat) :
    ∀ {cs : List Char}, splitFirst m cs = none → splitFirst m (cs.drop n) = none := by
  induction n with
  | zero => intro cs h; simpa using h
  | succ k ih =>
    intro cs h
    cases cs with
    | nil => simpa using h
    | cons c rest =>
      rw [List.drop_succ_cons]
      exact ih (splitFirst_none_tail h)

theorem splitFirst_none_dropWhile (m : List Char) (p : Char → Bool) :
    ∀ {cs : List Char}, splitFirst m cs = none → splitFirst m (cs.dropWhile p) = none := by
  intro cs
  induction cs with
  | nil => intro h; simpa using h
  | cons c rest ih =>
    intro h
    rw [List.dropWhile_cons]
    by_cases hp : p c = true
    · rw [if_pos hp]
      exact ih (splitFirst_none_tail h)
    · rw [if_neg hp]
      exact h

theorem tryMatchDirective_none {cs : List Char} (h : splitFirst endMarker cs = none) :
    tryMatchDirective cs = none := by
  unfold tryMatchDirective
  by_cases hn : (cs.takeWhile isWordChar).isEmpty = true
  · simp [hn]
  · have h1 : splitFirst endMarker (cs.dropWhile isWordChar) = none :=
      splitFirst_none_dropWhile _ _ h
    have h2 : splitFirst endMarker
        ((cs.dropWhile isWordChar).dropWhile notNewline) = none :=
      splitFirst_none_dropWhile _ _ h1
    cases hr : (cs.dropWhile isWordChar).dropWhile notNewline with
    | nil => simp [hn, hr]
    | cons c rest3 =>
      have h3 : splitFirst endMarker rest3 = none := splitFirst_none_tail (hr ▸ h2)
      simp [hn, hr, h3]

theorem processDirectivesGo_no_end (vars : String → Option JSValue) :
    ∀ (fuel : Nat) (cs : List Char), splitFirst endMarker cs = none →
      processDirectivesGo vars fuel cs = cs := by
  intro fuel
  induction fuel with
  | zero => intro cs _; rfl
  | succ k ih =>
    intro cs h
    cases cs with
    | nil => rfl
    | cons c rest =>
      have htail := splitFirst_none_tail h
      have hdrop : splitFirst endMarker ((c :: rest).drop 7) = none :=
        splitFirst_none_drop _ 7 h
      unfold processDirectivesGo
      by_cases hp : ifMarker.isPrefixOf (c :: rest) = true
      · rw [hp, tryMatchDirective_none hdrop, ih rest htail]
        rfl
      · simp only [Bool.not_eq_true] at hp
        rw [hp, ih rest htail]
        rfl

theorem splitOnCharList_no_sep (sep : Char) :
    ∀ {cs : List Char}, sep ∉ cs → splitOnCharList sep cs = [cs] := by
  intro cs
  induction cs with
  | nil => intro _; rfl
  | cons c rest ih =>
    intro h
    have hc : ¬ c = sep := fun hh => h (hh ▸ List.mem_cons_self c rest)
    unfold splitOnCharList
    rw [if_neg hc, ih (fun hm => h (List.mem_cons_of_mem _ hm))]

theorem splitOnCharList_sep_append (sep : Char) :
    ∀ (as bs : List Char), sep ∉ as →
      splitOnCharList sep (as ++ sep :: bs) = as :: splitOnCharList sep bs := by
  intro as
  induction as with
  | nil =>
    intro bs _
    rw [List.nil_append, splitOnCharList, if_pos rfl]
  | cons a as ih =>
    intro bs h
    have ha : ¬ a = sep := fun hh => h (hh ▸ List.mem_cons_self a as)
    have hm : sep ∉ as := fun hm => h (List.mem_cons_of_mem _ hm)
    rw [List.cons_append, splitOnCharList, if_neg ha, ih bs hm]

theorem parseFileString_no_colon (s : String) (h : ':' ∉ s.data) :
    parseFileString s = { project := none, filename := s } := by
  unfold parseFileString
  rw [splitOnCharList_no_sep _ h]

theorem parseFileString_one_colon (p f : String) (hp : ':' ∉ p.data) (hf : ':' ∉ f.data) :
    parseFileString (p ++ ":" ++ f) = { project := some p, filename := f } := by
  unfold parseFileString
  have hdata : (p ++ ":" ++ f).data = p.data ++ ':' :: f.data := by
    rw [strDataAppend, strDataAppend, List.append_assoc]
    rfl
  rw [hdata, splitOnCharList_sep_append _ _ _ hp, splitOnCharList_no_sep _ hf]

theorem parseFileString_two_colons (p f r : String) (hp : ':' ∉ p.data) (hf : ':' ∉ f.data) :
    parseFileString (p ++ ":" ++ f ++ ":" ++ r) = { project := some p, filename := f } := by
  unfold parseFileString
  have hdata : (p ++ ":" ++ f ++ ":" ++ r).data = p.data ++ ':' :: (f.data ++ ':' :: r.data) := by
    rw [strDataAppend, strDataAppend, strDataAppend, strDataAppend]
    simp only [List.append_assoc]
    rfl
  rw [hdata, splitOnCharList_sep_append _ _ _ hp, splitOnCharList_sep_append _ _ _ hf]

theorem appendColon_left_inj {a b c d : String} (hlen : a.length = c.length)
    (h : a ++ ":" ++ b = c ++ ":" ++ d) : a = c := by
  have hd : a.data ++ (':' :: b.data) = c.data ++ (':' :: d.data) := by
    have hh := congrArg String.data h
    rw [strDataAppend, strDataAppend, strDataAppend, strDataAppend] at hh
    rw [List.append_assoc, List.append_assoc] at hh
    exact hh
  have hinj := List.append_inj hd (by exact hlen)
  calc a = ⟨a.data⟩ := rfl
    _ = ⟨c.data⟩ := by rw [hinj.1]
    _ = c := rfl

/-! ## Claim theorems for the text-level components -/

/-- Counterexample to claim C6: with the build variable V bound to the number
2 and no comparison literal, the variable is truthy, yet the directive block
is replaced by the false body, because the source compares the variable with
the boolean true under loose equality instead of testing truthiness. -/
theorem directive_truthy_counterexample :
    specTruthy (.num 2) = true
    ∧ processDirectives (fun n => if n = "V" then some (.num 2) else none)
        "---@if V\nA\n---@else\nB\n---@end" = "B"
    ∧ ("B" : String) ≠ "A" := by
  exact ⟨by decide, by decide, by decide⟩

/-- Claim C6 (amended): a present literal is parsed as a typed value (JSON
when parseable, the raw text as a plain string otherwise) and the true body
survives exactly when the build variable is loosely equal, in the JavaScript
sense, to the parsed literal; an absent literal compares the variable loosely
with the boolean true (so the number 1 selects the true body while the truthy
number 2 does not); the false body is empty when no else clause is present;
the surviving body is trimmed. -/
theorem processDirectives_loose_equality :
    processDirectives (fun n => if n = "RELEASE" then some (.bool true) else none)
        "---@if RELEASE true\nA\n---@else\nB\n---@end" = "A"
    ∧ processDirectives (fun n => if n = "RELEASE" then some (.num 1) else none)
        "---@if RELEASE true\nA\n---@else\nB\n---@end" = "A"
    ∧ processDirectives (fun n => if n = "RELEASE" then some (.str "true") else none)
        "---@if RELEASE true\nA\n---@else\nB\n---@end" = "B"
    ∧ processDirectives (fun n => if n = "V" then some (.num 1) else none)
        "---@if V\nA\n---@else\nB\n---@end" = "A"
    ∧ processDirectives (fun n => if n = "V" then some (.num 2) else none)
        "---@if V 2\nA\n---@else\nB\n---@end" = "A"
    ∧ processDirectives (fun _ => none) "---@if X\nbody\n---@end" = ""
    ∧ processDirectives (fun n => if n = "MODE" then some (.str " debug") else none)
        "---@if MODE debug\nA\n---@else\nB\n---@end" = "A"
    ∧ processDirectives (fun n => if n = "MODE" then some (.str "debug") else none)
        "---@if MODE debug\nA\n---@else\nB\n---@end" = "B"
    ∧ processDirectives (fun n => if n = "RELEASE" then some (.bool true) else none)
        "---@if RELEASE true\n  A \n---@else\nB\n---@end" = "A" := by
  refine ⟨by decide, by decide, by decide, by decide, by decide, by decide, by decide,
    by decide, by decide⟩

/-- Claim C7 (code bug): when preload emission is disabled and a rewritten
line is exactly a bare inline-lookup expression, the source executes a return
of the empty string from inside the per-line loop, so the whole file collapses
to the empty string instead of just that line being dropped; with preload
emission enabled both lines survive. -/
theorem processLines_bare_lookup_empties_file :
    processLines false (fun l => l)
        ("_REQ[" ++ ⟨[qChar]⟩ ++ "p:u.lua" ++ ⟨[qChar]⟩ ++ "]" ++ "\nlocal x = 1") = ""
    ∧ processLines false (fun l => l)
        ("_REQ[" ++ ⟨[qChar]⟩ ++ "p:u.lua" ++ ⟨[qChar]⟩ ++ "]" ++ "\nlocal x = 1")
        ≠ "\nlocal x = 1"
    ∧ processLines true (fun l => l)
        ("_REQ[" ++ ⟨[qChar]⟩ ++ "p:u.lua" ++ ⟨[qChar]⟩ ++ "]" ++ "\nlocal x = 1")
        = "_REQ[" ++ ⟨[qChar]⟩ ++ "p:u.lua" ++ ⟨[qChar]⟩ ++ "]" ++ "\nlocal x = 1" := by
  exact ⟨by decide, by decide, by decide⟩

/-- Claim C8 (code bug): the numeric trailing-question-mark guard is applied
to the individual lines obtained by splitting the source on newlines, and its
pattern requires a newline, so inside the pipeline it can never fire and never
warns; applied to the whole text, as the regex itself expects, it performs the
documented rewrite exactly once. -/
theorem ubGuard_dead_in_line_loop :
    processLines true (fun l => (ubApply l).1) "local s = [[\n3?\n]]" = "local s = [[\n3?\n]]"
    ∧ ubWarningsInLoop "local s = [[\n3?\n]]" = 0
    ∧ ubApply "local s = [[\n3?\n]]" = ("local s = [[\n3.0\n]]", 1) := by
  exact ⟨by decide, by decide, by decide⟩

/-- Counterexample to claim C9: on a reference with two colons the parser
keeps only the text between the first and second colon as the filename, not
all of the text after the first colon. -/
theorem parseFileString_second_colon_counterexample :
    parseFileString "a:b:c" = { project := some "a", filename := "b" }
    ∧ parseFileString "a:b:c" ≠ { project := some "a", filename := "b:c" } := by
  exact ⟨by decide, by decide⟩

/-- Claim C9 (amended): with no colon the whole reference is a bare filename
with no explicit library; otherwise the text before the first colon becomes
the library and the text between the first and the second colon, or to the end
when no second colon exists, becomes the filename, any text from a second
colon on being discarded. -/
theorem parseFileString_first_colon_fields :
    (∀ s : String, ':' ∉ s.data → parseFileString s = { project := none, filename := s })
    ∧ (∀ p f : String, ':' ∉ p.data → ':' ∉ f.data →
        parseFileString (p ++ ":" ++ f) = { project := some p, filename := f })
    ∧ (∀ p f r : String, ':' ∉ p.data → ':' ∉ f.data →
        parseFileString (p ++ ":" ++ f ++ ":" ++ r) = { project := some p, filename := f }) := by
  exact ⟨fun s h => parseFileString_no_colon s h,
    fun p f hp hf => parseFileString_one_colon p f hp hf,
    fun p f r hp hf => parseFileString_two_colons p f r hp hf⟩

/-- Witness for the amended claim C9 at concrete references. -/
theorem parseFileString_first_colon_fields_witness :
    parseFileString "utils/helper" = { project := none, filename := "utils/helper" }
    ∧ parseFileString ("Lib" ++ ":" ++ "File") = { project := some "Lib", filename := "File" } := by
  exact ⟨parseFileString_first_colon_fields.1 "utils/helper" (by decide),
    parseFileString_first_colon_fields.2.1 "Lib" "File" (by decide) (by decide)⟩

/-- Claim C10: directive processing replaces only complete blocks; a source
whose text contains no closing marker at all is returned unchanged without any
error, and after a complete block is replaced, an unterminated opener in the
remaining text passes through verbatim. -/
theorem processDirectives_unterminated_passthrough :
    (∀ (vars : String → Option JSValue) (s : String),
        splitFirst endMarker s.data = none → processDirectives vars s = s)
    ∧ processDirectives (fun n => if n = "A" then some (.bool true) else none)
        "---@if A true\nP\n---@end\n---@if B\nQ" = "P\n---@if B\nQ" := by
  constructor
  · intro vars s h
    unfold processDirectives
    rw [processDirectivesGo_no_end vars s.data.length s.data h]
  · decide

/-- Witness for claim C10: a file with an opening marker and no closing
marker anywhere is left untouched. -/
theorem processDirectives_unterminated_passthrough_witness :
    processDirectives (fun _ => none) "x = 1\n---@if FOO\ny = 2" = "x = 1\n---@if FOO\ny = 2" :=
  processDirectives_unterminated_passthrough.1 (fun _ => none) "x = 1\n---@if FOO\ny = 2" (by decide)

/-! ## Claim theorems for the require graph builder -/

/-- Counterexample to claim C1: in the cross-library build the file util.lua
resolves to the same absolute path through two different contexts, which
produce two different full require names; the cache is keyed by the full name,
so the file is read and transformed twice and two entries accumulate for one
absolute path. -/
theorem requireFile_rekeyed_path_counterexample :
    countCompileEvents (requireFileAux cfgCross 5 (initialState cfgCross) "proj:main")
        "/proj/src/util.lua" = 2
    ∧ requiredNamesOf (requireFileAux cfgCross 5 (initialState cfgCross) "proj:main") =
        ["proj:util.lua", "proj:../../../proj/src/util.lua", "lib:../../libs/l/src/mod.lua"] := by
  exact ⟨by decide, by decide⟩

/-- Claim C1 (amended): memoization is keyed by the computed full require
name, which depends on the resolving context, not by the absolute path alone;
whenever the computed full name of an in-project resolution is already present
in the accumulated list, the call returns the first entry carrying that name
and leaves the state completely unchanged, so the file is neither read nor
re-transformed; the same absolute path can still be transformed once per
distinct full name it receives. -/
theorem requireFile_memoized_by_full_name (cfg : CompilerConfig) (fuel : Nat)
    (st : CompilerState) (fn : String) (info : DULuaCompilerFileInfo) (e : DULuaCompilerRequire)
    (h1 : getRequiredFileInfo cfg st fn = .ok (some info))
    (h2 : st.currentFiles.contains info.fullpath = false)
    (h3 : cfg.containsPath info.fullpath = true)
    (h4 : st.requiredFiles.find? (fun r => r.fullNameWithProject == fullRequireName info) = some e) :
    requireFileAux cfg fuel st fn = .ok (some e, st) := by
  cases fuel with
  | zero => exact requireFileStep_cache_hit _ _ _ _ _ _ h1 h2 h3 h4
  | succ n => exact requireFileStep_cache_hit _ _ _ _ _ _ h1 h2 h3 h4

/-- State of the diamond build while the second referencing file is in
flight and the shared utility module is already cached. -/
def stCachedUtil : CompilerState :=
  { sourceDirectories := ["/proj/src", "/proj/src"]
    requiredFiles := [⟨"proj:util.lua", []⟩]
    currentFiles := ["/proj/src/b.lua"]
    currentLibraries := [some projLib, some projLib]
    log := [] }

/-- Witness for the amended claim C1: re-resolving the cached utility module
returns the cached entry and leaves the state unchanged. -/
theorem requireFile_memoized_by_full_name_witness :
    requireFileAux cfgDiamond 5 stCachedUtil "util" =
      .ok (some ⟨"proj:util.lua", []⟩, stCachedUtil) :=
  requireFile_memoized_by_full_name cfgDiamond 5 stCachedUtil "util"
    ⟨{ project := some "proj", filename := "util.lua" }, "/proj/src/util.lua"⟩
    ⟨"proj:util.lua", []⟩ (by decide) (by decide) (by decide) (by decide)

/-- Claim C2: a reference whose resolved absolute path is already on the
stack of files in flight fails fatally with the loop error regardless of fuel
or cache, producing no result; the diamond build, where one file is referenced
along two different non-cyclic paths, succeeds and transforms the shared file
exactly once, accumulating it exactly once. -/
theorem requireFile_cycle_detection :
    (∀ (cfg : CompilerConfig) (fuel : Nat) (st : CompilerState) (fn : String)
        (info : DULuaCompilerFileInfo),
        getRequiredFileInfo cfg st fn = .ok (some info) →
        st.currentFiles.contains info.fullpath = true →
        requireFileAux cfg fuel st fn =
          .error (.loop ("Files required in a loop at " ++ currentFileStr st)))
    ∧ requireFileAux cfgCycle 5 (initialState cfgCycle) "proj:a" =
        .error (.loop "Files required in a loop at /proj/src/b.lua")
    ∧ (requireFileAux cfgDiamond 5 (initialState cfgDiamond) "proj:main").isOk = true
    ∧ countCompileEvents (requireFileAux cfgDiamond 5 (initialState cfgDiamond) "proj:main")
        "/proj/src/util.lua" = 1
    ∧ requiredNamesOf (requireFileAux cfgDiamond 5 (initialState cfgDiamond) "proj:main") =
        ["proj:util.lua", "proj:a.lua", "proj:b.lua"] := by
  refine ⟨?_, by decide, by decide, by decide, by decide⟩
  intro cfg fuel st fn info h1 h2
  cases fuel with
  | zero => exact requireFileStep_cycle _ _ _ _ _ h1 h2
  | succ n => exact requireFileStep_cycle _ _ _ _ _ h1 h2

/-- State of the cyclic build while b.lua, reached from a.lua, is in
flight. -/
def stMidCycle : CompilerState :=
  { sourceDirectories := ["/proj/src", "/proj/src", "/proj/src"]
    requiredFiles := []
    currentFiles := ["/proj/src/b.lua", "/proj/src/a.lua"]
    currentLibraries := [some projLib, some projLib, some projLib]
    log := [] }

/-- Witness for claim C2: resolving a again while it is on the stack raises
the loop error. -/
theorem requireFile_cycle_detection_witness :
    requireFileAux cfgCycle 3 stMidCycle "a" =
      .error (.loop ("Files required in a loop at " ++ currentFileStr stMidCycle)) :=
  requireFile_cycle_detection.1 cfgCycle 3 stMidCycle "a"
    ⟨{ project := some "proj", filename := "a.lua" }, "/proj/src/a.lua"⟩
    (by decide) (by decide)

/-- Claim C3: a reference that resolves to no existing file panics when the
context stack is empty (the build entry file itself is missing); in a non-root
context it returns null after logging a status message when the raw reference
matches a declared internal prefix and a warning otherwise, leaving all
state besides the log unchanged; and the transformation emits the original
reference text unchanged for a null resolution. -/
theorem requireFile_missing_reference :
    (∀ (cfg : CompilerConfig) (fuel : Nat) (st : CompilerState) (fn : String),
        getRequiredFileInfo cfg st fn = .ok none →
        isRootFile st = false →
        requireFileAux cfg fuel st fn =
          .ok (none, addLog st
            (if cfg.internalPaths.any (fun p => strStartsWith fn p)
             then .status ("Required a game library " ++ fn ++ " at file " ++ currentFileStr st)
             else .warn ("Required library " ++ fn ++ " at file " ++ currentFileStr st
               ++ " was not found anywhere, leaving statement alone..."))))
    ∧ (∀ (cfg : CompilerConfig) (fuel : Nat) (st : CompilerState) (fn : String),
        getRequiredFileInfo cfg st fn = .ok none →
        isRootFile st = true →
        requireFileAux cfg fuel st fn = .error (.panic ("Project file missing: " ++ fn)))
    ∧ (∀ (f : CompilerState → String →
          Except CompileError (Option DULuaCompilerRequire × CompilerState))
        (preload : Bool) (st : CompilerState) (r : String) (rs : List String)
        (st1 : CompilerState) (toks : List String) (st2 : CompilerState),
        f st r = .ok (none, st1) →
        processRefs f preload st1 rs = .ok (toks, st2) →
        processRefs f preload st (r :: rs) = .ok (requireOriginal r :: toks, st2)) := by
  refine ⟨?_, ?_, ?_⟩
  · intro cfg fuel st fn h1 h2
    cases fuel with
    | zero => exact requireFileStep_missing_nonroot _ _ _ _ h1 h2
    | succ n => exact requireFileStep_missing_nonroot _ _ _ _ h1 h2
  · intro cfg fuel st fn h1 h2
    cases fuel with
    | zero => exact requireFileStep_missing_root _ _ _ _ h1 h2
    | succ n => exact requireFileStep_missing_root _ _ _ _ h1 h2
  · intro f preload st r rs st1 toks st2 hf hrest
    unfold processRefs
    rw [hf]
    dsimp only
    rw [hrest]

/-- Witness for claim C3: the missing engine library dkjson, declared as an
internal prefix, yields a null resolution with a status message, while the
undeclared missing reference nosuch yields a warning; at the root the missing
entry file panics. -/
theorem requireFile_missing_reference_witness :
    requireFileAux cfgMiss 3 stInMain "dkjson" =
      .ok (none, addLog stInMain
        (if cfgMiss.internalPaths.any (fun p => strStartsWith "dkjson" p)
         then .status ("Required a game library " ++ "dkjson" ++ " at file "
           ++ currentFileStr stInMain)
         else .warn ("Required library " ++ "dkjson" ++ " at file " ++ currentFileStr stInMain
           ++ " was not found anywhere, leaving statement alone...")))
    ∧ requireFileAux cfgMiss 3 (initialState cfgMiss) "missing_root" =
        .error (.panic ("Project file missing: " ++ "missing_root")) := by
  exact ⟨requireFile_missing_reference.1 cfgMiss 3 stInMain "dkjson" (by decide) (by decide),
    requireFile_missing_reference.2.1 cfgMiss 3 (initialState cfgMiss) "missing_root"
      (by decide) (by decide)⟩

/-- Counterexample to claim C4: resolving lib:foo from the root context of
the project assigns the explicit library lib, but recomputes the filename
relative to the source root of the active context library (the project), not
relative to the source root of the assigned library, which would give
foo.lua. -/
theorem getRequiredFileInfo_cross_library_counterexample :
    getRequiredFileInfo cfgMiss (initialState cfgMiss) "lib:foo" =
      .ok (some { requireInfo := { project := some "lib", filename := "../../libs/l/src/foo.lua" },
                  fullpath := "/libs/l/src/foo.lua" })
    ∧ pathRelative libL.sourcePath "/libs/l/src/foo.lua" = "foo.lua"
    ∧ ("../../libs/l/src/foo.lua" : String) ≠ "foo.lua" := by
  exact ⟨by decide, by decide, by decide⟩

/-- Claim C4 (amended): on success, when the active context carries a
library, the resolver sets the library field to the identifier of the active
context library exactly when no library was named, and always recomputes the
filename as the path of the resolved file relative to the source root of the
active context library with forward slashes; consequently a bare reference and
an explicit reference naming the active context library resolve to identical
canonical results when made from the library source root, while a reference
naming a different library is canonicalized against the referencing context,
not against the named library. -/
theorem getRequiredFileInfo_canonicalization :
    (∀ (cfg : CompilerConfig) (st : CompilerState) (fn : String)
        (info : DULuaCompilerFileInfo) (cur : Library),
        currentLibrary st = some cur →
        getRequiredFileInfo cfg st fn = .ok (some info) →
        info.requireInfo.filename = replaceBackslashes (pathRelative cur.sourcePath info.fullpath)
        ∧ (strOptTruthy (parseFileString fn).project = false →
            info.requireInfo.project = some cur.id))
    ∧ (∀ (cfg : CompilerConfig) (st : CompilerState) (n : String) (cur : Library),
        currentLibrary st = some cur →
        currentDirectory st = cur.sourcePath →
        lookupLibrary cfg cur.id = some cur →
        ':' ∉ n.data →
        ':' ∉ cur.id.data →
        cur.id ≠ "" →
        getRequiredFileInfo cfg st (cur.id ++ ":" ++ n) = getRequiredFileInfo cfg st n) := by
  constructor
  · intro cfg st fn info cur hcur h
    unfold getRequiredFileInfo at h
    rw [hcur] at h
    split at h
    · rename_i cur2 heq
      obtain rfl : cur2 = cur := by
        injection heq with hh
        exact hh.symm
      dsimp only at h
      split at h
      · simp at h
      · split at h
        · simp at h
        · rename_i filepath hfind
          simp only [Except.ok.injEq, Option.some.injEq] at h
          subst h
          refine ⟨rfl, ?_⟩
          intro htr
          simp [htr]
    · rename_i heq
      exact absurd heq (by simp)
  · intro cfg st n cur hcur hdir hlook hn hcurid hne
    have hpn : parseFileString (cur.id ++ ":" ++ n) = { project := some cur.id, filename := n } :=
      parseFileString_one_colon _ _ hcurid hn
    have hbn : parseFileString n = { project := none, filename := n } :=
      parseFileString_no_colon _ hn
    have htr : strOptTruthy (some cur.id) = true := by
      simp [strOptTruthy, hne]
    unfold getRequiredFileInfo
    rw [hpn, hbn]
    dsimp only [strOptTruthy]
    have hb : (!(cur.id == "")) = true := by simp [hne]
    rw [hb]
    simp only [Option.getD_some]
    rw [hlook, hcur, hdir]
    rfl

/-- Witness for the amended claim C4: from the project root context, the
explicit form proj:util and the bare form util resolve to identical canonical
results. -/
theorem getRequiredFileInfo_canonicalization_witness :
    getRequiredFileInfo cfgDiamond (initialState cfgDiamond) ("proj" ++ ":" ++ "util") =
      getRequiredFileInfo cfgDiamond (initialState cfgDiamond) "util" :=
  getRequiredFileInfo_canonicalization.2 cfgDiamond (initialState cfgDiamond) "util" projLib
    (by decide) (by decide) (by decide) (by decide) (by decide) (by decide)

/-- Claim C5: every successful resolution of a file outside the project
boundary carries the synthetic key built from the first ten characters of the
hex digest of the absolute path followed by a colon and the basename; the key
is a pure function of the absolute path, and two paths whose truncated digests
differ receive different keys. -/
theorem externalPathKey_assignment :
    (∀ (cfg : CompilerConfig) (fuel : Nat) (st : CompilerState) (fn : String)
        (info : DULuaCompilerFileInfo) (e : DULuaCompilerRequire) (st2 : CompilerState),
        getRequiredFileInfo cfg st fn = .ok (some info) →
        st.currentFiles.contains info.fullpath = false →
        cfg.containsPath info.fullpath = false →
        requireFileAux cfg fuel st fn = .ok (some e, st2) →
        e.fullNameWithProject = externalPathKey cfg.sha1Hex info.fullpath)
    ∧ (∀ (h : String → String) (p q : String), p = q →
        externalPathKey h p = externalPathKey h q)
    ∧ (∀ (h : String → String) (p q : String),
        ((h p).take 10).length = ((h q).take 10).length →
        (h p).take 10 ≠ (h q).take 10 →
        externalPathKey h p ≠ externalPathKey h q) := by
  refine ⟨?_, ?_, ?_⟩
  · intro cfg fuel st fn info e st2 h1 h2 h3 h5
    cases fuel with
    | zero => exact requireFileStep_external_key _ _ _ _ _ _ _ h1 h2 h3 h5
    | succ n => exact requireFileStep_external_key _ _ _ _ _ _ _ h1 h2 h3 h5
  · intro h p q hpq
    rw [hpq]
  · intro h p q hlen hne heq
    unfold externalPathKey at heq
    exact hne (appendColon_left_inj hlen heq)

/-- Final state of the vendor resolution in the missing-reference build. -/
def stVendorOut : CompilerState :=
  { sourceDirectories := ["/proj/src", "/proj/src"]
    requiredFiles := [⟨"da39a3ee5e:vendor.lua", []⟩]
    currentFiles := ["/proj/src/main.lua"]
    currentLibraries := [some projLib, some projLib]
    log := [.status (compileMsg "/proj/src/main.lua"),
            .status "External path hashed [da39a3ee5e:vendor.lua] -> /ext/vendor.lua",
            .status (compileMsg "/ext/vendor.lua")] }

/-- Witness for claim C5: a resolution of the external vendor file receives
the hashed key, and for a concrete digest function two distinct paths receive
distinct keys. -/
theorem externalPathKey_assignment_witness :
    (⟨"da39a3ee5e:vendor.lua", []⟩ : DULuaCompilerRequire).fullNameWithProject =
      externalPathKey cfgMiss.sha1Hex "/ext/vendor.lua"
    ∧ externalPathKey (fun p => if p = "/a" then "0000000000aaaa" else "1111111111bbbb") "/a" ≠
        externalPathKey (fun p => if p = "/a" then "0000000000aaaa" else "1111111111bbbb") "/b" := by
  constructor
  · exact externalPathKey_assignment.1 cfgMiss 3 stInMain "vendor"
      ⟨{ project := some "proj", filename := "../../ext/vendor.lua" }, "/ext/vendor.lua"⟩
      ⟨"da39a3ee5e:vendor.lua", []⟩ stVendorOut
      (by decide) (by decide) (by decide) (by decide)
  · exact externalPathKey_assignment.2.2 _ "/a" "/b" (by decide) (by decide)
